import Mathlib

/-!
Shallow embedding of the dlt-parse-rs codec (src/lib.rs and
src/verbose/field_slicer.rs) over byte buffers modelled as `List Nat`
(each element a byte value `< 256`), with theorems checking the
specification's claims against the embedded code.
-/

namespace DltParse

/-- Predicate restricting a `List Nat` to actual byte values (models `&[u8]`). -/
def BytesOk (l : List Nat) : Prop := ∀ b ∈ l, b < 256

instance (l : List Nat) : Decidable (BytesOk l) := by
  unfold BytesOk; infer_instance

/-- `const MAX_VERSION: u8 = 0b111;` -/
def MAX_VERSION : Nat := 0b111

/-- `const EXTDENDED_HEADER_FLAG: u8 = 0b1;` -/
def EXTDENDED_HEADER_FLAG : Nat := 0b1

/-- `const BIG_ENDIAN_FLAG: u8 = 0b10;` -/
def BIG_ENDIAN_FLAG : Nat := 0b10

/-- `const ECU_ID_FLAG: u8 = 0b100;` -/
def ECU_ID_FLAG : Nat := 0b100

/-- `const SESSION_ID_FLAG: u8 = 0b1000;` -/
def SESSION_ID_FLAG : Nat := 0b1000

/-- `const TIMESTAMP_FLAG: u8 = 0b10000;` -/
def TIMESTAMP_FLAG : Nat := 0b10000

/-- `struct ExtendedDltHeader` from src/lib.rs. -/
structure ExtendedDltHeader where
  message_info : Nat
  number_of_arguments : Nat
  application_id : Nat
  context_id : Nat
deriving DecidableEq, Repr

/-- `struct DltHeader` from src/lib.rs. -/
structure DltHeader where
  big_endian : Bool
  version : Nat
  message_counter : Nat
  length : Nat
  ecu_id : Option Nat
  session_id : Option Nat
  timestamp : Option Nat
  extended_header : Option ExtendedDltHeader
deriving DecidableEq, Repr

/-- `enum ReadError` from src/lib.rs. The `io::Error` payload of `IoError`
is not observable in the embedding, so the constructor is nullary. -/
inductive ReadError where
  | UnexpectedEndOfSlice (minimum_size : Nat) (actual_size : Nat)
  | LengthSmallerThenMinimum (required_length : Nat) (length : Nat)
  | IoError
deriving DecidableEq, Repr

/-- `enum WriteError` from src/lib.rs (the list-based sink never raises
`IoError`, but the constructor is kept for completeness). -/
inductive WriteError where
  | VersionTooLarge (version : Nat)
  | IoError
deriving DecidableEq, Repr

/-- Bounds check used to model a Rust `Option<u32>` field. -/
def optU32ok : Option Nat → Bool
  | none => true
  | some v => decide (v < 4294967296)

/-- Field bounds of a Rust-typed `ExtendedDltHeader` value
(`u8`/`u8`/`u32`/`u32`). -/
def ExtendedDltHeader.wfb (e : ExtendedDltHeader) : Bool :=
  decide (e.message_info < 256) && decide (e.number_of_arguments < 256) &&
    decide (e.application_id < 4294967296) && decide (e.context_id < 4294967296)

/-- Bounds check used to model a Rust `Option<ExtendedDltHeader>` field. -/
def optExtOk : Option ExtendedDltHeader → Bool
  | none => true
  | some e => e.wfb

/-- Field bounds of a Rust-typed `DltHeader` value: every integer field
fits the machine-integer width it has in the source. -/
def DltHeader.wfb (h : DltHeader) : Bool :=
  decide (h.version < 256) && decide (h.message_counter < 256) &&
    decide (h.length < 65536) && optU32ok h.ecu_id && optU32ok h.session_id &&
    optU32ok h.timestamp && optExtOk h.extended_header

/-- Models `reader.read_u8()` on a byte stream: on success returns the byte
and the remaining stream, otherwise the stream is exhausted (io error). -/
def readU8 : List Nat → Except ReadError (Nat × List Nat)
  | [] => .error .IoError
  | b :: r => .ok (b, r)

/-- Models `reader.read_u16::<BigEndian>()`. -/
def readU16be : List Nat → Except ReadError (Nat × List Nat)
  | a :: b :: r => .ok (a * 256 + b, r)
  | _ => .error .IoError

/-- Models `reader.read_u32::<BigEndian>()`. -/
def readU32be : List Nat → Except ReadError (Nat × List Nat)
  | a :: b :: c :: d :: r =>
      .ok (a * 16777216 + b * 65536 + c * 256 + d, r)
  | _ => .error .IoError

/-- Models the pattern
`if 0 != header_type & FLAG { Some(reader.read_u32::<BigEndian>()?) } else { None }`
from `DltHeader::read`. -/
def readOptU32be (c : Bool) (s : List Nat) :
    Except ReadError (Option Nat × List Nat) :=
  if c then
    match readU32be s with
    | .error e => .error e
    | .ok (v, s1) => .ok (some v, s1)
  else .ok (none, s)

/-- Models the conditional extended-header block of `DltHeader::read`:
`message_info`, `number_of_arguments`, `application_id`, `context_id`. -/
def readExt (c : Bool) (s : List Nat) :
    Except ReadError (Option ExtendedDltHeader × List Nat) :=
  if c then
    match readU8 s with
    | .error e => .error e
    | .ok (mi, s1) =>
      match readU8 s1 with
      | .error e => .error e
      | .ok (na, s2) =>
        match readU32be s2 with
        | .error e => .error e
        | .ok (ai, s3) =>
          match readU32be s3 with
          | .error e => .error e
          | .ok (ci, s4) => .ok (some ⟨mi, na, ai, ci⟩, s4)
  else .ok (none, s)

/-- `DltHeader::read` from src/lib.rs, with the `io::Read` source modelled
as the byte list that remains to be read. Fields are produced in the
source's evaluation order: header type, message counter, length, then the
flag-gated optional fields. -/
def DltHeader.read (s : List Nat) : Except ReadError (DltHeader × List Nat) :=
  match readU8 s with
  | .error e => .error e
  | .ok (header_type, s1) =>
    match readU8 s1 with
    | .error e => .error e
    | .ok (message_counter, s2) =>
      match readU16be s2 with
      | .error e => .error e
      | .ok (length, s3) =>
        match readOptU32be (header_type &&& ECU_ID_FLAG != 0) s3 with
        | .error e => .error e
        | .ok (ecu_id, s4) =>
          match readOptU32be (header_type &&& SESSION_ID_FLAG != 0) s4 with
          | .error e => .error e
          | .ok (session_id, s5) =>
            match readOptU32be (header_type &&& TIMESTAMP_FLAG != 0) s5 with
            | .error e => .error e
            | .ok (timestamp, s6) =>
              match readExt (header_type &&& EXTDENDED_HEADER_FLAG != 0) s6 with
              | .error e => .error e
              | .ok (extended_header, s7) =>
                .ok (⟨header_type &&& BIG_ENDIAN_FLAG != 0,
                      (header_type >>> 5) &&& MAX_VERSION,
                      message_counter, length, ecu_id, session_id,
                      timestamp, extended_header⟩, s7)

/-- The header-type bitfield built by `DltHeader::write`: flag bits or-ed
together, then `(version << 5) & 0b1110_0000` (the `% 256` models the `u8`
wrap of the shift). -/
def headerTypeByte (h : DltHeader) : Nat :=
  (if h.extended_header.isSome then EXTDENDED_HEADER_FLAG else 0) |||
    (if h.big_endian then BIG_ENDIAN_FLAG else 0) |||
    (if h.ecu_id.isSome then ECU_ID_FLAG else 0) |||
    (if h.session_id.isSome then SESSION_ID_FLAG else 0) |||
    (if h.timestamp.isSome then TIMESTAMP_FLAG else 0) |||
    ((h.version <<< 5) % 256 &&& 0b11100000)

/-- Big-endian byte encoding of a `u16` (`writer.write_u16::<BigEndian>`). -/
def u16be (v : Nat) : List Nat := [v / 256 % 256, v % 256]

/-- Big-endian byte encoding of a `u32` (`writer.write_u32::<BigEndian>`). -/
def u32be (v : Nat) : List Nat :=
  [v / 16777216 % 256, v / 65536 % 256, v / 256 % 256, v % 256]

/-- Bytes written for an optional `u32` standard-header field
(`if let Some(value) = ... { writer.write_u32::<BigEndian>(value)?; }`). -/
def optU32be : Option Nat → List Nat
  | some v => u32be v
  | none => []

/-- Bytes written for the optional extended header block of
`DltHeader::write`. -/
def extBytes : Option ExtendedDltHeader → List Nat
  | some e => e.message_info % 256 :: e.number_of_arguments % 256 ::
      (u32be e.application_id ++ u32be e.context_id)
  | none => []

/-- The byte sequence produced by the write calls of `DltHeader::write`
after the version check passes, in source order. -/
def DltHeader.encode (h : DltHeader) : List Nat :=
  headerTypeByte h :: h.message_counter % 256 ::
    (u16be h.length ++ optU32be h.ecu_id ++ optU32be h.session_id ++
      optU32be h.timestamp ++ extBytes h.extended_header)

/-- `DltHeader::write` from src/lib.rs, with the `io::Write` sink modelled
as the byte list written so far (returned alongside the result, mirroring
`&mut T`): the version pre-check fails before anything is written,
otherwise all header bytes are appended. -/
def DltHeader.write (h : DltHeader) (sink : List Nat) :
    Except WriteError Unit × List Nat :=
  if h.version > MAX_VERSION then
    (.error (.VersionTooLarge h.version), sink)
  else
    (.ok (), sink ++ h.encode)

/-- `DltHeader::header_len` from src/lib.rs. -/
def DltHeader.header_len (h : DltHeader) : Nat :=
  4 + (match h.ecu_id with | some _ => 4 | none => 0)
    + (match h.session_id with | some _ => 4 | none => 0)
    + (match h.timestamp with | some _ => 4 | none => 0)
    + (match h.extended_header with | some _ => 10 | none => 0)

/-- `ExtendedDltHeader::is_verbose` from src/lib.rs. -/
def ExtendedDltHeader.is_verbose (e : ExtendedDltHeader) : Bool :=
  e.message_info &&& 0b1 != 0

/-- `ExtendedDltHeader::set_is_verbose` from src/lib.rs, with the `&mut
self` mutation modelled as returning the updated record. -/
def ExtendedDltHeader.set_is_verbose (e : ExtendedDltHeader)
    (is_verbose : Bool) : ExtendedDltHeader :=
  if is_verbose then
    { e with message_info := e.message_info ||| 0b1 }
  else
    { e with message_info := e.message_info &&& 0b11111110 }

/-- `struct DltPacketSlice` from src/lib.rs: the borrowed byte range is
modelled as the list of bytes it covers. -/
structure DltPacketSlice where
  slice : List Nat
  header_size : Nat
deriving DecidableEq, Repr

/-- The `header_size` computation of `DltPacketSlice::from_slice`: 4 base
bytes plus the flag-gated increments, in source order. -/
def headerSizeOf (header_type : Nat) : Nat :=
  4 + (if header_type &&& EXTDENDED_HEADER_FLAG != 0 then 10 else 0)
    + (if header_type &&& ECU_ID_FLAG != 0 then 4 else 0)
    + (if header_type &&& SESSION_ID_FLAG != 0 then 4 else 0)
    + (if header_type &&& TIMESTAMP_FLAG != 0 then 4 else 0)

/-- `DltPacketSlice::from_slice` from src/lib.rs. `slice.getD 2 0 * 256 +
slice.getD 3 0` is `BigEndian::read_u16(&slice[2..4])` (in scope the list
has length at least 4, so the defaults are never used). -/
def DltPacketSlice.from_slice (slice : List Nat) :
    Except ReadError DltPacketSlice :=
  if slice.length < 4 then
    .error (.UnexpectedEndOfSlice 4 slice.length)
  else
    let length := slice.getD 2 0 * 256 + slice.getD 3 0
    if slice.length < length then
      .error (.UnexpectedEndOfSlice length slice.length)
    else
      let header_size := headerSizeOf (slice.getD 0 0)
      if length < header_size + 4 then
        .error (.LengthSmallerThenMinimum (header_size + 4) length)
      else
        .ok ⟨slice.take length, header_size⟩

/-- `DltPacketSlice::payload` from src/lib.rs: `&self.slice[self.header_size..]`. -/
def DltPacketSlice.payload (p : DltPacketSlice) : List Nat :=
  p.slice.drop p.header_size

/-- Big-endian `u32` read from the first four bytes of a list
(`BigEndian::read_u32`). -/
def be4 (l : List Nat) : Nat :=
  l.getD 0 0 * 16777216 + l.getD 1 0 * 65536 + l.getD 2 0 * 256 + l.getD 3 0

/-- `DltPacketSlice::header` from src/lib.rs: re-decodes the header from
the slice bytes, with each `&slice[k..]` re-slicing modelled as `drop`. -/
def DltPacketSlice.header (p : DltPacketSlice) : DltHeader :=
  let header_type := p.slice.getD 0 0
  let big_endian := header_type &&& BIG_ENDIAN_FLAG != 0
  let version := (header_type >>> 5) &&& MAX_VERSION
  let message_counter := p.slice.getD 1 0
  let length := p.slice.getD 2 0 * 256 + p.slice.getD 3 0
  let (ecu_id, s1) :=
    if header_type &&& ECU_ID_FLAG != 0 then
      (some (be4 (p.slice.drop 4)), p.slice.drop 8)
    else
      (none, p.slice.drop 4)
  let (session_id, s2) :=
    if header_type &&& SESSION_ID_FLAG != 0 then
      (some (be4 s1), s1.drop 4)
    else
      (none, s1)
  let (timestamp, s3) :=
    if header_type &&& TIMESTAMP_FLAG != 0 then
      (some (be4 s2), s2.drop 4)
    else
      (none, s2)
  let extended_header :=
    if header_type &&& EXTDENDED_HEADER_FLAG != 0 then
      some ⟨s3.getD 0 0, s3.getD 1 0, be4 (s3.drop 2), be4 (s3.drop 6)⟩
    else
      none
  ⟨big_endian, version, message_counter, length, ecu_id, session_id,
    timestamp, extended_header⟩

/-- `<SliceIterator as Iterator>::next` from src/lib.rs: the iterator state
is the remaining byte slice; the result is the yielded item (if any) and
the state after the call. -/
def SliceIterator.next (slice : List Nat) :
    Option (Except ReadError DltPacketSlice) × List Nat :=
  if !slice.isEmpty then
    match DltPacketSlice.from_slice slice with
    | .error e => (some (.error e), slice.drop slice.length)
    | .ok value => (some (.ok value), slice.drop value.slice.length)
  else
    (none, slice)

/-- `enum Layer` from the crate's error module (not under src/).
Modelled from the spec: only the variant used by the field slicer
(`Layer::VerboseValue`) is needed. -/
inductive Layer where
  | VerboseValue
deriving DecidableEq, Repr

/-- `struct UnexpectedEndOfSliceError` from the crate's error module (not
under src/). Modelled from the spec:
`UnexpectedEndOfSlice{layer, minimum_size, actual_size}` (offset-relative,
layer-tagged for diagnostics). -/
structure UnexpectedEndOfSliceError where
  layer : Layer
  minimum_size : Nat
  actual_size : Nat
deriving DecidableEq, Repr

/-- `enum VerboseDecodeError` from the crate's error module (not under
src/). Modelled from the spec: `UnexpectedEndOfSlice`,
`VariableNameStringMissingNullTermination`,
`VariableUnitStringMissingNullTermination`, and a UTF-8 validation error
carrying the underlying decode failure detail; the `Utf8` payload here
carries the byte range whose validation failed (Rust's `Utf8Error` is a
deterministic function of those bytes). -/
inductive VerboseDecodeError where
  | UnexpectedEndOfSlice (err : UnexpectedEndOfSliceError)
  | VariableNameStringMissingNullTermination
  | VariableUnitStringMissingNullTermination
  | Utf8 (bytes : List Nat)
deriving DecidableEq, Repr

/-- Continuation-byte check of UTF-8 validation: `0x80..=0xBF`. -/
def utf8Cont (b : Nat) : Bool := 0x80 ≤ b && b ≤ 0xBF

/-- Validity check of `core::str::from_utf8`: accepts exactly well-formed
UTF-8 (no overlong forms, no surrogates, max `U+10FFFF`). -/
def validUtf8 : List Nat → Bool
  | [] => true
  | b :: rest =>
    if b < 0x80 then validUtf8 rest
    else if b < 0xC2 then false
    else if b < 0xE0 then
      match rest with
      | b1 :: r => utf8Cont b1 && validUtf8 r
      | [] => false
    else if b < 0xF0 then
      match rest with
      | b1 :: b2 :: r =>
        (if b = 0xE0 then 0xA0 ≤ b1 && b1 ≤ 0xBF
         else if b = 0xED then 0x80 ≤ b1 && b1 ≤ 0x9F
         else utf8Cont b1) && utf8Cont b2 && validUtf8 r
      | _ => false
    else if b < 0xF5 then
      match rest with
      | b1 :: b2 :: b3 :: r =>
        (if b = 0xF0 then 0x90 ≤ b1 && b1 ≤ 0xBF
         else if b = 0xF4 then 0x80 ≤ b1 && b1 ≤ 0x8F
         else utf8Cont b1) && utf8Cont b2 && utf8Cont b3 && validUtf8 r
      | _ => false
    else false

/-- `struct FieldSlicer` from src/verbose/field_slicer.rs. -/
structure FieldSlicer where
  rest : List Nat
  offset : Nat
deriving DecidableEq, Repr

/-- `FieldSlicer::new` from src/verbose/field_slicer.rs. -/
def FieldSlicer.new (data : List Nat) (offset : Nat) : FieldSlicer :=
  ⟨data, offset⟩

/-- `FieldSlicer::read_u8` from src/verbose/field_slicer.rs; the `&mut
self` receiver is modelled by returning the slicer state after the call
next to the result (on the error path no mutation has happened yet, so
the state is returned unchanged, as in the source). -/
def FieldSlicer.read_u8 (s : FieldSlicer) :
    Except VerboseDecodeError Nat × FieldSlicer :=
  if s.rest.length < 1 then
    (.error (.UnexpectedEndOfSlice
      ⟨.VerboseValue, s.offset + 1, s.offset + s.rest.length⟩), s)
  else
    (.ok (s.rest.getD 0 0), ⟨s.rest.drop 1, s.offset + 1⟩)

/-- `FieldSlicer::read_2bytes` from src/verbose/field_slicer.rs. -/
def FieldSlicer.read_2bytes (s : FieldSlicer) :
    Except VerboseDecodeError (Nat × Nat) × FieldSlicer :=
  if s.rest.length < 2 then
    (.error (.UnexpectedEndOfSlice
      ⟨.VerboseValue, s.offset + 2, s.offset + s.rest.length⟩), s)
  else
    (.ok (s.rest.getD 0 0, s.rest.getD 1 0), ⟨s.rest.drop 2, s.offset + 2⟩)

/-- `FieldSlicer::read_u16` from src/verbose/field_slicer.rs:
`read_2bytes` then `u16::from_be_bytes` / `u16::from_le_bytes`. -/
def FieldSlicer.read_u16 (s : FieldSlicer) (is_big_endian : Bool) :
    Except VerboseDecodeError Nat × FieldSlicer :=
  match s.read_2bytes with
  | (r, s1) =>
    (r.map (fun b => if is_big_endian then b.1 * 256 + b.2
                     else b.2 * 256 + b.1), s1)

/-- `FieldSlicer::read_var_name` from src/verbose/field_slicer.rs. The
returned `&str` is modelled as the list of its bytes. -/
def FieldSlicer.read_var_name (s : FieldSlicer) (is_big_endian : Bool) :
    Except VerboseDecodeError (List Nat) × FieldSlicer :=
  if s.rest.length < 2 then
    (.error (.UnexpectedEndOfSlice
      ⟨.VerboseValue, s.offset + 2, s.offset + s.rest.length⟩), s)
  else
    let name_length :=
      if is_big_endian then s.rest.getD 0 0 * 256 + s.rest.getD 1 0
      else s.rest.getD 1 0 * 256 + s.rest.getD 0 0
    let total_size := 2 + name_length
    if s.rest.length < total_size then
      (.error (.UnexpectedEndOfSlice
        ⟨.VerboseValue, s.offset + total_size, s.offset + s.rest.length⟩), s)
    else
      if 0 < name_length then
        let name_raw := (s.rest.drop 2).take (name_length - 1)
        if s.rest.getD (2 + name_length - 1) 0 != 0 then
          (.error .VariableNameStringMissingNullTermination, s)
        else if validUtf8 name_raw then
          (.ok name_raw, ⟨s.rest.drop total_size, s.offset + total_size⟩)
        else
          (.error (.Utf8 name_raw), s)
      else
        (.ok [], ⟨s.rest.drop total_size, s.offset + total_size⟩)

/-- `FieldSlicer::read_var_name_and_unit` from src/verbose/field_slicer.rs.
The name field is fully validated before the unit field is examined, as in
the source. -/
def FieldSlicer.read_var_name_and_unit (s : FieldSlicer)
    (is_big_endian : Bool) :
    Except VerboseDecodeError (List Nat × List Nat) × FieldSlicer :=
  if s.rest.length < 4 then
    (.error (.UnexpectedEndOfSlice
      ⟨.VerboseValue, s.offset + 4, s.offset + s.rest.length⟩), s)
  else
    let name_length :=
      if is_big_endian then s.rest.getD 0 0 * 256 + s.rest.getD 1 0
      else s.rest.getD 1 0 * 256 + s.rest.getD 0 0
    let unit_length :=
      if is_big_endian then s.rest.getD 2 0 * 256 + s.rest.getD 3 0
      else s.rest.getD 3 0 * 256 + s.rest.getD 2 0
    let total_size := 4 + name_length + unit_length
    if s.rest.length < total_size then
      (.error (.UnexpectedEndOfSlice
        ⟨.VerboseValue, s.offset + total_size, s.offset + s.rest.length⟩), s)
    else
      let name_check : Except VerboseDecodeError (List Nat) :=
        if 0 < name_length then
          let name_raw := (s.rest.drop 4).take (name_length - 1)
          if s.rest.getD (4 + name_length - 1) 0 != 0 then
            .error .VariableNameStringMissingNullTermination
          else if validUtf8 name_raw then .ok name_raw
          else .error (.Utf8 name_raw)
        else .ok []
      match name_check with
      | .error e => (.error e, s)
      | .ok name =>
        let unit_check : Except VerboseDecodeError (List Nat) :=
          if 0 < unit_length then
            let unit_raw := (s.rest.drop (4 + name_length)).take (unit_length - 1)
            if s.rest.getD (4 + name_length + unit_length - 1) 0 != 0 then
              .error .VariableUnitStringMissingNullTermination
            else if validUtf8 unit_raw then .ok unit_raw
            else .error (.Utf8 unit_raw)
          else .ok []
        match unit_check with
        | .error e => (.error e, s)
        | .ok unitVal =>
          (.ok (name, unitVal),
            ⟨s.rest.drop total_size, s.offset + total_size⟩)

/-- `FieldSlicer::read_raw` from src/verbose/field_slicer.rs. -/
def FieldSlicer.read_raw (s : FieldSlicer) (len : Nat) :
    Except VerboseDecodeError (List Nat) × FieldSlicer :=
  if s.rest.length < len then
    (.error (.UnexpectedEndOfSlice
      ⟨.VerboseValue, s.offset + len, s.offset + s.rest.length⟩), s)
  else
    (.ok (s.rest.take len), ⟨s.rest.drop len, s.offset + len⟩)

/-- The all-or-nothing cursor contract of a `FieldSlicer` read operation:
on success the remaining slice shrinks from the front by exactly some `k`
bytes and the offset advances by the same `k`; on failure the slicer state
is exactly the state before the call. -/
def cursorOk {α : Type} (out : Except VerboseDecodeError α × FieldSlicer)
    (s : FieldSlicer) : Prop :=
  match out.1 with
  | .ok _ => ∃ k, k ≤ s.rest.length ∧ out.2.rest = s.rest.drop k ∧
      out.2.offset = s.offset + k
  | .error _ => out.2 = s

/-! ### Helper lemmas -/

set_option maxRecDepth 100000

theorem headerTypeByte_bits (h : DltHeader) (hv : h.version ≤ 7) :
    (headerTypeByte h &&& EXTDENDED_HEADER_FLAG != 0) = h.extended_header.isSome ∧
    (headerTypeByte h &&& BIG_ENDIAN_FLAG != 0) = h.big_endian ∧
    (headerTypeByte h &&& ECU_ID_FLAG != 0) = h.ecu_id.isSome ∧
    (headerTypeByte h &&& SESSION_ID_FLAG != 0) = h.session_id.isSome ∧
    (headerTypeByte h &&& TIMESTAMP_FLAG != 0) = h.timestamp.isSome ∧
    (headerTypeByte h >>> 5) &&& MAX_VERSION = h.version ∧
    headerTypeByte h < 256 := by
  obtain ⟨be, ver, mc, len, ecu, ses, ts, ext⟩ := h
  dsimp only at hv
  simp only [headerTypeByte]
  dsimp only
  cases ext <;> cases be <;> cases ecu <;> cases ses <;> cases ts <;>
    simp only [Option.isSome_some, Option.isSome_none] <;>
    interval_cases ver <;> decide

theorem reencode_byte (t : Nat) (ht : t < 256) :
    ((if t &&& EXTDENDED_HEADER_FLAG != 0 then EXTDENDED_HEADER_FLAG else 0) |||
      (if t &&& BIG_ENDIAN_FLAG != 0 then BIG_ENDIAN_FLAG else 0) |||
      (if t &&& ECU_ID_FLAG != 0 then ECU_ID_FLAG else 0) |||
      (if t &&& SESSION_ID_FLAG != 0 then SESSION_ID_FLAG else 0) |||
      (if t &&& TIMESTAMP_FLAG != 0 then TIMESTAMP_FLAG else 0) |||
      ((((t >>> 5) &&& MAX_VERSION) <<< 5) % 256 &&& 0b11100000)) = t := by
  revert ht
  revert t
  decide

theorem bytesOk_cons {a : Nat} {l : List Nat} (h : BytesOk (a :: l)) :
    a < 256 ∧ BytesOk l := by
  refine ⟨h a (by simp), fun b hb => h b (by simp [hb])⟩

theorem readU8_ok {s : List Nat} {v : Nat} {r : List Nat}
    (h : readU8 s = .ok (v, r)) : s = v :: r := by
  cases s with
  | nil => exact Except.noConfusion h
  | cons a t =>
    simp only [readU8, Except.ok.injEq, Prod.mk.injEq] at h
    rw [h.1, h.2]

theorem readU16be_ok {s : List Nat} {v : Nat} {r : List Nat}
    (hb : BytesOk s) (h : readU16be s = .ok (v, r)) :
    s = u16be v ++ r ∧ v < 65536 ∧ BytesOk r := by
  match s with
  | [] => exact Except.noConfusion h
  | [a] => exact Except.noConfusion h
  | a :: b :: t =>
    simp only [readU16be, Except.ok.injEq, Prod.mk.injEq] at h
    obtain ⟨hv, hr⟩ := h
    obtain ⟨ha, hb1⟩ := bytesOk_cons hb
    obtain ⟨hb2, hb3⟩ := bytesOk_cons hb1
    subst hv hr
    refine ⟨?_, by omega, hb3⟩
    simp only [u16be, List.cons_append, List.nil_append, List.cons.injEq]
    exact ⟨by omega, by omega, trivial⟩

theorem readU32be_ok {s : List Nat} {v : Nat} {r : List Nat}
    (hb : BytesOk s) (h : readU32be s = .ok (v, r)) :
    s = u32be v ++ r ∧ v < 4294967296 ∧ BytesOk r := by
  match s with
  | [] => exact Except.noConfusion h
  | [a] => exact Except.noConfusion h
  | [a, b] => exact Except.noConfusion h
  | [a, b, c] => exact Except.noConfusion h
  | a :: b :: c :: d :: t =>
    simp only [readU32be, Except.ok.injEq, Prod.mk.injEq] at h
    obtain ⟨hv, hr⟩ := h
    obtain ⟨ha, hb1⟩ := bytesOk_cons hb
    obtain ⟨hb2, hb3⟩ := bytesOk_cons hb1
    obtain ⟨hc, hb4⟩ := bytesOk_cons hb3
    obtain ⟨hd, hb5⟩ := bytesOk_cons hb4
    subst hv hr
    refine ⟨?_, by omega, hb5⟩
    simp only [u32be, List.cons_append, List.nil_append, List.cons.injEq]
    exact ⟨by omega, by omega, by omega, by omega, trivial⟩

theorem readOptU32be_ok {c : Bool} {s : List Nat} {o : Option Nat}
    {r : List Nat} (hb : BytesOk s) (h : readOptU32be c s = .ok (o, r)) :
    optU32be o ++ r = s ∧ o.isSome = c ∧ BytesOk r := by
  cases c with
  | false =>
    simp only [readOptU32be, Bool.false_eq_true, if_false, Except.ok.injEq,
      Prod.mk.injEq] at h
    obtain ⟨ho, hr⟩ := h
    subst ho hr
    exact ⟨rfl, rfl, hb⟩
  | true =>
    simp only [readOptU32be, if_true] at h
    cases e : readU32be s with
    | error err => rw [e] at h; exact Except.noConfusion h
    | ok p =>
      obtain ⟨v, s1⟩ := p
      rw [e] at h
      simp only [Except.ok.injEq, Prod.mk.injEq] at h
      obtain ⟨ho, hr⟩ := h
      subst ho hr
      obtain ⟨hs, hv, hb1⟩ := readU32be_ok hb e
      exact ⟨hs.symm, rfl, hb1⟩

theorem readExt_ok {c : Bool} {s : List Nat} {o : Option ExtendedDltHeader}
    {r : List Nat} (hb : BytesOk s) (h : readExt c s = .ok (o, r)) :
    extBytes o ++ r = s ∧ o.isSome = c ∧ BytesOk r := by
  cases c with
  | false =>
    simp only [readExt, Bool.false_eq_true, if_false, Except.ok.injEq,
      Prod.mk.injEq] at h
    obtain ⟨ho, hr⟩ := h
    subst ho hr
    exact ⟨rfl, rfl, hb⟩
  | true =>
    simp only [readExt, if_true] at h
    cases e1 : readU8 s with
    | error err => rw [e1] at h; exact Except.noConfusion h
    | ok p1 =>
      obtain ⟨mi, s1⟩ := p1
      rw [e1] at h
      dsimp only at h
      cases e2 : readU8 s1 with
      | error err => rw [e2] at h; exact Except.noConfusion h
      | ok p2 =>
        obtain ⟨na, s2⟩ := p2
        rw [e2] at h
        dsimp only at h
        cases e3 : readU32be s2 with
        | error err => rw [e3] at h; exact Except.noConfusion h
        | ok p3 =>
          obtain ⟨ai, s3⟩ := p3
          rw [e3] at h
          dsimp only at h
          cases e4 : readU32be s3 with
          | error err => rw [e4] at h; exact Except.noConfusion h
          | ok p4 =>
            obtain ⟨ci, s4⟩ := p4
            rw [e4] at h
            dsimp only at h
            simp only [Except.ok.injEq, Prod.mk.injEq] at h
            obtain ⟨ho, hr⟩ := h
            subst ho hr
            have hs1 := readU8_ok e1
            subst hs1
            obtain ⟨hmi, hb1⟩ := bytesOk_cons hb
            have hs2 := readU8_ok e2
            subst hs2
            obtain ⟨hna, hb2⟩ := bytesOk_cons hb1
            obtain ⟨hs3, hai, hb3⟩ := readU32be_ok hb2 e3
            subst hs3
            obtain ⟨hs4, hci, hb4⟩ := readU32be_ok hb3 e4
            subst hs4
            refine ⟨?_, rfl, hb4⟩
            simp only [extBytes, List.cons_append, List.append_assoc,
              List.cons.injEq]
            exact ⟨by omega, by omega, trivial⟩

theorem readOptU32be_encode {o : Option Nat} {r : List Nat}
    (hb : optU32ok o = true) :
    readOptU32be o.isSome (optU32be o ++ r) = .ok (o, r) := by
  cases o with
  | none => simp [readOptU32be, optU32be]
  | some v =>
    simp only [optU32ok, decide_eq_true_eq] at hb
    simp only [readOptU32be, optU32be, u32be, Option.isSome_some,
      List.cons_append, List.nil_append, readU32be, if_true]
    have : v / 16777216 % 256 * 16777216 + v / 65536 % 256 * 65536 +
        v / 256 % 256 * 256 + v % 256 = v := by omega
    rw [this]

theorem readExt_encode {o : Option ExtendedDltHeader} {r : List Nat}
    (hb : optExtOk o = true) :
    readExt o.isSome (extBytes o ++ r) = .ok (o, r) := by
  cases o with
  | none => simp [readExt, extBytes]
  | some e =>
    obtain ⟨mi, na, ai, ci⟩ := e
    simp only [optExtOk, ExtendedDltHeader.wfb, Bool.and_eq_true,
      decide_eq_true_eq] at hb
    obtain ⟨⟨⟨hmi, hna⟩, hai⟩, hci⟩ := hb
    simp only [readExt, extBytes, Option.isSome_some, List.cons_append,
      List.append_assoc, List.nil_append, readU8, u32be, readU32be, if_true]
    have h1 : ai / 16777216 % 256 * 16777216 + ai / 65536 % 256 * 65536 +
        ai / 256 % 256 * 256 + ai % 256 = ai := by omega
    have h2 : ci / 16777216 % 256 * 16777216 + ci / 65536 % 256 * 65536 +
        ci / 256 % 256 * 256 + ci % 256 = ci := by omega
    rw [h1, h2, Nat.mod_eq_of_lt hmi, Nat.mod_eq_of_lt hna]

theorem readExt_encode_nil {o : Option ExtendedDltHeader}
    (hb : optExtOk o = true) :
    readExt o.isSome (extBytes o) = .ok (o, []) := by
  have := readExt_encode (r := []) hb
  rwa [List.append_nil] at this

/-! ### Claim theorems -/

/-- C1: for every Rust-typed header h with version at most 7, encoding h
with `DltHeader::write` succeeds, appending exactly `h.encode` to the
sink, and decoding the produced bytes with `DltHeader::read` succeeds and
returns a header equal to h (all fields), consuming the whole stream. -/
theorem C1_write_read_roundtrip (h : DltHeader) (hwf : h.wfb = true)
    (hv : h.version ≤ 7) :
    DltHeader.write h [] = (.ok (), h.encode) ∧
      DltHeader.read h.encode = .ok (h, []) := by
  simp only [DltHeader.wfb, Bool.and_eq_true, decide_eq_true_eq] at hwf
  obtain ⟨⟨⟨⟨⟨⟨hver, hmc⟩, hlen⟩, hecu⟩, hses⟩, hts⟩, hext⟩ := hwf
  obtain ⟨f1, f2, f3, f4, f5, f6, f7⟩ := headerTypeByte_bits h hv
  constructor
  · simp only [DltHeader.write, MAX_VERSION]
    rw [if_neg (by omega), List.nil_append]
  · conv_lhs => rw [DltHeader.encode]
    simp only [DltHeader.read, readU8, u16be, List.cons_append,
      List.append_assoc, List.nil_append, readU16be, f1, f3, f4, f5,
      readOptU32be_encode hecu, readOptU32be_encode hses,
      readOptU32be_encode hts, readExt_encode_nil hext]
    rw [Except.ok.injEq, Prod.mk.injEq]
    refine ⟨?_, rfl⟩
    rw [DltHeader.mk.injEq]
    exact ⟨f2, f6, Nat.mod_eq_of_lt hmc, by omega, rfl, rfl, rfl, rfl⟩

theorem C1_write_read_roundtrip_witness :
    DltHeader.write ⟨true, 5, 77, 513, some 99, none, some 4000000000,
      some ⟨3, 4, 5, 6⟩⟩ [] =
      (.ok (), DltHeader.encode ⟨true, 5, 77, 513, some 99, none,
        some 4000000000, some ⟨3, 4, 5, 6⟩⟩) ∧
    DltHeader.read (DltHeader.encode ⟨true, 5, 77, 513, some 99, none,
      some 4000000000, some ⟨3, 4, 5, 6⟩⟩) =
      .ok (⟨true, 5, 77, 513, some 99, none, some 4000000000,
        some ⟨3, 4, 5, 6⟩⟩, []) :=
  C1_write_read_roundtrip ⟨true, 5, 77, 513, some 99, none, some 4000000000,
    some ⟨3, 4, 5, 6⟩⟩ (by decide) (by decide)

/-- C6: for every header with version greater than 7, `DltHeader::write`
fails with `VersionTooLarge` and writes no bytes to the sink (the version
check happens before any write); for every header with version at most 7,
write never returns `VersionTooLarge`. -/
theorem C6_version_check (h : DltHeader) (sink : List Nat) :
    (h.version > 7 →
      DltHeader.write h sink = (.error (.VersionTooLarge h.version), sink)) ∧
    (h.version ≤ 7 →
      ∀ v, (DltHeader.write h sink).1 ≠ .error (.VersionTooLarge v)) := by
  constructor
  · intro hgt
    simp only [DltHeader.write, MAX_VERSION]
    rw [if_pos (by omega)]
  · intro hle v
    simp only [DltHeader.write, MAX_VERSION]
    rw [if_neg (by omega)]
    simp

theorem C6_version_check_witness :
    (DltHeader.write ⟨false, 8, 0, 0, none, none, none, none⟩ [] =
      (.error (.VersionTooLarge 8), [])) ∧
    ∀ v, (DltHeader.write ⟨false, 0, 0, 0, none, none, none, none⟩ []).1 ≠
      .error (.VersionTooLarge v) :=
  ⟨(C6_version_check ⟨false, 8, 0, 0, none, none, none, none⟩ []).1
      (by decide),
    fun v => (C6_version_check ⟨false, 0, 0, 0, none, none, none, none⟩ []).2
      (by decide) v⟩

theorem set_is_verbose_bits : ∀ m, m < 256 →
    ((m ||| 1) >>> 1 = m >>> 1) ∧ ((m &&& 254) >>> 1 = m >>> 1) ∧
    ((m ||| 1) &&& 1 != 0) = true ∧ ((m &&& 254) &&& 1 != 0) = false ∧
    ((m ||| 1) ||| 1) = (m ||| 1) ∧ ((m &&& 254) &&& 254) = (m &&& 254) := by
  decide

/-- C10: `ExtendedDltHeader::set_is_verbose(b)` modifies only bit 0 of
`message_info` (all higher bits and the fields `number_of_arguments`,
`application_id`, `context_id` are unchanged), afterwards `is_verbose()`
returns exactly b, and calling it twice with the same argument equals
calling it once. -/
theorem C10_set_is_verbose (e : ExtendedDltHeader) (b : Bool)
    (hm : e.message_info < 256) :
    (∀ i, 1 ≤ i →
      (e.set_is_verbose b).message_info.testBit i = e.message_info.testBit i) ∧
    (e.set_is_verbose b).number_of_arguments = e.number_of_arguments ∧
    (e.set_is_verbose b).application_id = e.application_id ∧
    (e.set_is_verbose b).context_id = e.context_id ∧
    (e.set_is_verbose b).is_verbose = b ∧
    (e.set_is_verbose b).set_is_verbose b = e.set_is_verbose b := by
  obtain ⟨s1, s2, s3, s4, s5, s6⟩ := set_is_verbose_bits e.message_info hm
  cases b
  · have key : (e.set_is_verbose false).message_info = e.message_info &&& 254 := by
      simp [ExtendedDltHeader.set_is_verbose]
    refine ⟨?_, by simp [ExtendedDltHeader.set_is_verbose],
      by simp [ExtendedDltHeader.set_is_verbose],
      by simp [ExtendedDltHeader.set_is_verbose], ?_, ?_⟩
    · intro i hi
      obtain ⟨j, rfl⟩ : ∃ j, i = 1 + j := ⟨i - 1, by omega⟩
      rw [key, ← Nat.testBit_shiftRight, ← Nat.testBit_shiftRight, s2]
    · simpa [ExtendedDltHeader.set_is_verbose, ExtendedDltHeader.is_verbose]
        using s4
    · simp [ExtendedDltHeader.set_is_verbose, s6]
  · have key : (e.set_is_verbose true).message_info = e.message_info ||| 1 := by
      simp [ExtendedDltHeader.set_is_verbose]
    refine ⟨?_, by simp [ExtendedDltHeader.set_is_verbose],
      by simp [ExtendedDltHeader.set_is_verbose],
      by simp [ExtendedDltHeader.set_is_verbose], ?_, ?_⟩
    · intro i hi
      obtain ⟨j, rfl⟩ : ∃ j, i = 1 + j := ⟨i - 1, by omega⟩
      rw [key, ← Nat.testBit_shiftRight, ← Nat.testBit_shiftRight, s1]
    · simpa [ExtendedDltHeader.set_is_verbose, ExtendedDltHeader.is_verbose]
        using s3
    · simp [ExtendedDltHeader.set_is_verbose, s5]

theorem C10_set_is_verbose_witness :
    ((ExtendedDltHeader.set_is_verbose ⟨5, 1, 2, 3⟩ true).is_verbose = true) ∧
    (ExtendedDltHeader.set_is_verbose ⟨5, 1, 2, 3⟩ true).message_info.testBit 2 =
      (5 : Nat).testBit 2 :=
  ⟨(C10_set_is_verbose ⟨5, 1, 2, 3⟩ true (by decide)).2.2.2.2.1,
    (C10_set_is_verbose ⟨5, 1, 2, 3⟩ true (by decide)).1 2 (by decide)⟩

/-- C2: `DltPacketSlice::from_slice` validates in stages: fewer than 4
bytes fails with `UnexpectedEndOfSlice{4, len}`; otherwise, with `length`
read big-endian from bytes [2..4), a buffer shorter than `length` fails
with `UnexpectedEndOfSlice{length, len}`; otherwise, with `header_size`
from the flag bits of byte 0, `length < header_size + 4` fails with
`LengthSmallerThenMinimum{header_size + 4, length}`; otherwise it succeeds
with the slice equal to `buffer[0..length]`. -/
theorem C2_from_slice_stages (buf : List Nat) (hb : BytesOk buf) :
    (buf.length < 4 →
      DltPacketSlice.from_slice buf =
        .error (.UnexpectedEndOfSlice 4 buf.length)) ∧
    (4 ≤ buf.length →
      (buf.length < buf.getD 2 0 * 256 + buf.getD 3 0 →
        DltPacketSlice.from_slice buf =
          .error (.UnexpectedEndOfSlice (buf.getD 2 0 * 256 + buf.getD 3 0)
            buf.length)) ∧
      (buf.getD 2 0 * 256 + buf.getD 3 0 ≤ buf.length →
        (buf.getD 2 0 * 256 + buf.getD 3 0 < headerSizeOf (buf.getD 0 0) + 4 →
          DltPacketSlice.from_slice buf =
            .error (.LengthSmallerThenMinimum (headerSizeOf (buf.getD 0 0) + 4)
              (buf.getD 2 0 * 256 + buf.getD 3 0))) ∧
        (headerSizeOf (buf.getD 0 0) + 4 ≤ buf.getD 2 0 * 256 + buf.getD 3 0 →
          DltPacketSlice.from_slice buf =
            .ok ⟨buf.take (buf.getD 2 0 * 256 + buf.getD 3 0),
              headerSizeOf (buf.getD 0 0)⟩))) := by
  refine ⟨fun h1 => ?_, fun h1 => ⟨fun h2 => ?_, fun h2 => ⟨fun h3 => ?_,
    fun h3 => ?_⟩⟩⟩ <;>
    simp only [DltPacketSlice.from_slice]
  · rw [if_pos h1]
  · rw [if_neg (by omega), if_pos h2]
  · rw [if_neg (by omega), if_neg (by omega), if_pos h3]
  · rw [if_neg (by omega), if_neg (by omega), if_neg (by omega)]

theorem C2_from_slice_stages_witness :
    DltPacketSlice.from_slice [1, 2, 3] =
      .error (.UnexpectedEndOfSlice 4 3) :=
  (C2_from_slice_stages [1, 2, 3] (by decide)).1 (by decide)

/-- C7: `SliceIterator::next` on an empty remaining buffer returns `None`;
on a non-empty buffer where `from_slice` succeeds it yields the slice and
advances the remaining buffer by exactly the yielded message's byte
length; on a non-empty buffer where `from_slice` fails it yields that
error once, forces the remaining buffer to empty, and the next call
returns `None`. -/
theorem C7_iterator (s : List Nat) :
    (s = [] → SliceIterator.next s = (none, s)) ∧
    (s ≠ [] → ∀ v, DltPacketSlice.from_slice s = .ok v →
      SliceIterator.next s = (some (.ok v), s.drop v.slice.length)) ∧
    (s ≠ [] → ∀ e, DltPacketSlice.from_slice s = .error e →
      SliceIterator.next s = (some (.error e), []) ∧
      SliceIterator.next (SliceIterator.next s).2 = (none, [])) := by
  refine ⟨fun hnil => ?_, fun hne v hv => ?_, fun hne e he => ?_⟩
  · subst hnil; rfl
  · have hemp : s.isEmpty = false := by
      cases s with
      | nil => exact absurd rfl hne
      | cons a t => rfl
    simp only [SliceIterator.next, hemp, Bool.not_false, if_true, hv]
  · have hemp : s.isEmpty = false := by
      cases s with
      | nil => exact absurd rfl hne
      | cons a t => rfl
    simp [SliceIterator.next, hemp, he, List.drop_length]

theorem C7_iterator_witness :
    SliceIterator.next [1, 2, 3] =
      (some (.error (.UnexpectedEndOfSlice 4 3)), []) ∧
    SliceIterator.next [] = (none, []) :=
  ⟨((C7_iterator [1, 2, 3]).2.2 (by decide) (.UnexpectedEndOfSlice 4 3)
      (by rfl)).1,
    (C7_iterator []).1 rfl⟩

/-- C8: every `DltPacketSlice` constructed by `from_slice` satisfies
`header_size + 4 ≤ slice.len() ≤ buffer.len()`, `slice.len()` equals the
declared big-endian length field, and `payload()` returns exactly
`slice[header_size..]`. -/
theorem C8_slice_invariants (buf : List Nat) (p : DltPacketSlice)
    (hb : BytesOk buf) (h : DltPacketSlice.from_slice buf = .ok p) :
    p.header_size + 4 ≤ p.slice.length ∧ p.slice.length ≤ buf.length ∧
    p.slice.length = buf.getD 2 0 * 256 + buf.getD 3 0 ∧
    p.payload = p.slice.drop p.header_size := by
  simp only [DltPacketSlice.from_slice] at h
  split at h
  · exact absurd h (by simp)
  · split at h
    · exact absurd h (by simp)
    · split at h
      · exact absurd h (by simp)
      · rw [Except.ok.injEq] at h
        subst h
        dsimp only [DltPacketSlice.payload]
        have hlen : (buf.take (buf.getD 2 0 * 256 + buf.getD 3 0)).length =
            buf.getD 2 0 * 256 + buf.getD 3 0 := by
          rw [List.length_take]
          omega
        refine ⟨?_, ?_, hlen, rfl⟩
        · rw [hlen]; omega
        · rw [hlen]; omega

theorem C8_slice_invariants_witness :
    (⟨[0, 0, 0, 8, 1, 2, 3, 4], 4⟩ : DltPacketSlice).header_size + 4 ≤ 8 ∧
    (⟨[0, 0, 0, 8, 1, 2, 3, 4], 4⟩ : DltPacketSlice).payload = [1, 2, 3, 4] := by
  have := C8_slice_invariants [0, 0, 0, 8, 1, 2, 3, 4]
    ⟨[0, 0, 0, 8, 1, 2, 3, 4], 4⟩ (by decide) (by rfl)
  exact ⟨by simpa using this.1, by simpa using this.2.2.2⟩

/-- C4: every `FieldSlicer` read operation (`read_u8`, `read_2bytes`,
`read_u16`, `read_var_name`, `read_var_name_and_unit`, `read_raw`) either
fully succeeds, shrinking the remaining slice from the front and advancing
the offset by exactly the number of bytes consumed, or fails with an error
and leaves both the remaining slice and the offset exactly as they were
before the call. -/
theorem C4_cursor_contract (s : FieldSlicer) (be : Bool) (n : Nat)
    (hb : BytesOk s.rest) :
    cursorOk s.read_u8 s ∧ cursorOk s.read_2bytes s ∧
    cursorOk (s.read_u16 be) s ∧ cursorOk (s.read_var_name be) s ∧
    cursorOk (s.read_var_name_and_unit be) s ∧ cursorOk (s.read_raw n) s := by
  refine ⟨?_, ?_, ?_, ?_, ?_, ?_⟩
  · simp only [FieldSlicer.read_u8]
    split_ifs <;> first | exact rfl | exact ⟨1, by omega, rfl, rfl⟩
  · simp only [FieldSlicer.read_2bytes]
    split_ifs <;> first | exact rfl | exact ⟨2, by omega, rfl, rfl⟩
  · simp only [FieldSlicer.read_u16, FieldSlicer.read_2bytes]
    split_ifs <;> first | exact rfl | exact ⟨2, by omega, rfl, rfl⟩
  · simp only [FieldSlicer.read_var_name]
    split_ifs <;> first | exact rfl | exact ⟨_, by omega, rfl, rfl⟩
  · simp only [FieldSlicer.read_var_name_and_unit]
    split_ifs <;> first | exact rfl | exact ⟨_, by omega, rfl, rfl⟩
  · simp only [FieldSlicer.read_raw]
    split_ifs <;> first | exact rfl | exact ⟨n, by omega, rfl, rfl⟩

theorem C4_cursor_contract_witness :
    cursorOk (FieldSlicer.read_u8 ⟨[7, 8], 3⟩) ⟨[7, 8], 3⟩ ∧
    cursorOk (FieldSlicer.read_raw ⟨[7, 8], 3⟩ 1) ⟨[7, 8], 3⟩ :=
  ⟨(C4_cursor_contract ⟨[7, 8], 3⟩ true 1 (by decide)).1,
    (C4_cursor_contract ⟨[7, 8], 3⟩ true 1 (by decide)).2.2.2.2.2⟩

/-- C5: `FieldSlicer::read_var_name` with length prefix n (read in the
caller-supplied endianness): if n = 0 the result is the empty string and
exactly 2 bytes are consumed; if n > 0 it requires n more bytes (else the
offset-relative `UnexpectedEndOfSlice` error, cursor unchanged), the last
of those n bytes must be 0x00 or it fails with
`VariableNameStringMissingNullTermination`, the first n-1 of those bytes
must be valid UTF-8 or it fails with the UTF-8 validation error carrying
that byte range, the returned string is those n-1 bytes (excluding the
terminator), and total consumption on success is 2 + n bytes. -/
theorem C5_read_var_name (s : FieldSlicer) (be : Bool) (n : Nat)
    (hb : BytesOk s.rest) (h2 : 2 ≤ s.rest.length)
    (hn : n = if be then s.rest.getD 0 0 * 256 + s.rest.getD 1 0
              else s.rest.getD 1 0 * 256 + s.rest.getD 0 0) :
    (n = 0 →
      s.read_var_name be = (.ok [], ⟨s.rest.drop 2, s.offset + 2⟩)) ∧
    (0 < n →
      (s.rest.length < 2 + n →
        s.read_var_name be = (.error (.UnexpectedEndOfSlice
          ⟨.VerboseValue, s.offset + (2 + n), s.offset + s.rest.length⟩), s)) ∧
      (2 + n ≤ s.rest.length →
        (s.rest.getD (2 + n - 1) 0 ≠ 0 →
          s.read_var_name be =
            (.error .VariableNameStringMissingNullTermination, s)) ∧
        (s.rest.getD (2 + n - 1) 0 = 0 →
          (validUtf8 ((s.rest.drop 2).take (n - 1)) = false →
            s.read_var_name be =
              (.error (.Utf8 ((s.rest.drop 2).take (n - 1))), s)) ∧
          (validUtf8 ((s.rest.drop 2).take (n - 1)) = true →
            s.read_var_name be =
              (.ok ((s.rest.drop 2).take (n - 1)),
                ⟨s.rest.drop (2 + n), s.offset + (2 + n)⟩))))) := by
  subst hn
  refine ⟨fun h0 => ?_, fun hpos => ⟨fun hshort => ?_, fun hlong =>
    ⟨fun hterm => ?_, fun hterm => ⟨fun hutf => ?_, fun hutf => ?_⟩⟩⟩⟩ <;>
    simp only [FieldSlicer.read_var_name]
  · rw [if_neg (by omega), if_neg (by omega), if_neg (by omega), h0]
  · rw [if_neg (by omega), if_pos (by omega)]
  · rw [if_neg (by omega), if_neg (by omega), if_pos (by omega),
      if_pos (by simpa using hterm)]
  · rw [if_neg (by omega), if_neg (by omega), if_pos (by omega),
      if_neg (by simpa using hterm), if_neg (by rw [hutf]; simp)]
  · rw [if_neg (by omega), if_neg (by omega), if_pos (by omega),
      if_neg (by simpa using hterm), if_pos hutf]

theorem C5_read_var_name_witness :
    FieldSlicer.read_var_name ⟨[0, 3, 65, 66, 0, 9], 5⟩ true =
      (.ok [65, 66], ⟨[9], 10⟩) ∧
    FieldSlicer.read_var_name ⟨[0, 0, 1, 2], 3⟩ true =
      (.ok [], ⟨[1, 2], 5⟩) := by
  constructor
  · have := C5_read_var_name ⟨[0, 3, 65, 66, 0, 9], 5⟩ true 3 (by decide)
      (by decide) (by decide)
    simpa using this.2 (by decide) |>.2 (by decide) |>.2 (by decide) |>.2
      (by decide)
  · have := C5_read_var_name ⟨[0, 0, 1, 2], 3⟩ true 0 (by decide)
      (by decide) (by decide)
    simpa using this.1 rfl

/-- C9: encoding is a left inverse of decoding at the byte level. For
every byte sequence from which `DltHeader::read` succeeds, writing the
returned header with `DltHeader::write` succeeds (the decoded version is
always at most 7) and reproduces exactly the bytes that read consumed:
the re-encoded bytes followed by the unconsumed rest equal the original
sequence, so every bit of the header-type byte survives the
decode-then-encode round trip. -/
theorem C9_read_then_write_identity (s : List Nat) (h : DltHeader)
    (rest : List Nat) (hb : BytesOk s)
    (hr : DltHeader.read s = .ok (h, rest)) :
    DltHeader.write h [] = (.ok (), h.encode) ∧ h.encode ++ rest = s := by
  simp only [DltHeader.read] at hr
  cases e1 : readU8 s with
  | error err => rw [e1] at hr; exact Except.noConfusion hr
  | ok p1 =>
  obtain ⟨ht, s1⟩ := p1
  rw [e1] at hr
  dsimp only at hr
  cases e2 : readU8 s1 with
  | error err => rw [e2] at hr; exact Except.noConfusion hr
  | ok p2 =>
  obtain ⟨mc, s2⟩ := p2
  rw [e2] at hr
  dsimp only at hr
  cases e3 : readU16be s2 with
  | error err => rw [e3] at hr; exact Except.noConfusion hr
  | ok p3 =>
  obtain ⟨len, s3⟩ := p3
  rw [e3] at hr
  dsimp only at hr
  cases e4 : readOptU32be (ht &&& ECU_ID_FLAG != 0) s3 with
  | error err => rw [e4] at hr; exact Except.noConfusion hr
  | ok p4 =>
  obtain ⟨ecu, s4⟩ := p4
  rw [e4] at hr
  dsimp only at hr
  cases e5 : readOptU32be (ht &&& SESSION_ID_FLAG != 0) s4 with
  | error err => rw [e5] at hr; exact Except.noConfusion hr
  | ok p5 =>
  obtain ⟨ses, s5⟩ := p5
  rw [e5] at hr
  dsimp only at hr
  cases e6 : readOptU32be (ht &&& TIMESTAMP_FLAG != 0) s5 with
  | error err => rw [e6] at hr; exact Except.noConfusion hr
  | ok p6 =>
  obtain ⟨ts, s6⟩ := p6
  rw [e6] at hr
  dsimp only at hr
  cases e7 : readExt (ht &&& EXTDENDED_HEADER_FLAG != 0) s6 with
  | error err => rw [e7] at hr; exact Except.noConfusion hr
  | ok p7 =>
  obtain ⟨ext, s7⟩ := p7
  rw [e7] at hr
  dsimp only at hr
  rw [Except.ok.injEq, Prod.mk.injEq] at hr
  obtain ⟨hh, hrest⟩ := hr
  subst hh hrest
  have hs1 := readU8_ok e1
  subst hs1
  obtain ⟨htlt, hb1⟩ := bytesOk_cons hb
  have hs2 := readU8_ok e2
  subst hs2
  obtain ⟨hmc, hb2⟩ := bytesOk_cons hb1
  obtain ⟨hs3, hlen, hb3⟩ := readU16be_ok hb2 e3
  subst hs3
  obtain ⟨hs4, hecu, hb4⟩ := readOptU32be_ok hb3 e4
  obtain ⟨hs5, hses, hb5⟩ := readOptU32be_ok hb4 e5
  obtain ⟨hs6, hts, hb6⟩ := readOptU32be_ok hb5 e6
  obtain ⟨hs7, hext, hb7⟩ := readExt_ok hb6 e7
  have hhtb : headerTypeByte ⟨ht &&& BIG_ENDIAN_FLAG != 0,
      (ht >>> 5) &&& MAX_VERSION, mc, len, ecu, ses, ts, ext⟩ = ht := by
    dsimp only [headerTypeByte]
    rw [hecu, hses, hts, hext]
    exact reencode_byte ht htlt
  have henc : DltHeader.encode ⟨ht &&& BIG_ENDIAN_FLAG != 0,
      (ht >>> 5) &&& MAX_VERSION, mc, len, ecu, ses, ts, ext⟩ ++ s7 =
      ht :: mc :: (u16be len ++ s3) := by
    dsimp only [DltHeader.encode]
    rw [hhtb, Nat.mod_eq_of_lt hmc]
    simp only [List.cons_append, List.append_assoc, List.cons.injEq,
      true_and]
    rw [hs7, hs6, hs5, hs4]
  refine ⟨?_, henc⟩
  have hv : (ht >>> 5) &&& MAX_VERSION ≤ MAX_VERSION := Nat.and_le_right
  simp only [DltHeader.write]
  rw [if_neg (by simp only [MAX_VERSION] at hv ⊢; omega), List.nil_append]

theorem C9_read_then_write_identity_witness :
    DltHeader.write ⟨true, 0, 7, 256, none, none, none, none⟩ [] =
      (.ok (), DltHeader.encode ⟨true, 0, 7, 256, none, none, none, none⟩) ∧
    DltHeader.encode ⟨true, 0, 7, 256, none, none, none, none⟩ ++ [] =
      [2, 7, 1, 0] :=
  C9_read_then_write_identity [2, 7, 1, 0]
    ⟨true, 0, 7, 256, none, none, none, none⟩ [] (by decide) (by rfl)

theorem header_len_ge_four (h : DltHeader) : 4 ≤ h.header_len := by
  obtain ⟨be, ver, mc, len, ecu, ses, ts, ext⟩ := h
  rcases ecu with _ | v1 <;> rcases ses with _ | v2 <;> rcases ts with _ | v3 <;>
    rcases ext with _ | v4 <;> simp [DltHeader.header_len]

theorem encode_length (h : DltHeader) : h.encode.length = h.header_len := by
  obtain ⟨be, ver, mc, len, ecu, ses, ts, ext⟩ := h
  rcases ecu with _ | v1 <;> rcases ses with _ | v2 <;> rcases ts with _ | v3 <;>
    rcases ext with _ | ⟨mi, na, ai, ci⟩ <;>
    simp [DltHeader.encode, DltHeader.header_len, u16be, u32be, optU32be,
      extBytes]

theorem headerSizeOf_headerTypeByte (h : DltHeader) (hv : h.version ≤ 7) :
    headerSizeOf (headerTypeByte h) = h.header_len := by
  obtain ⟨be, ver, mc, len, ecu, ses, ts, ext⟩ := h
  dsimp only at hv
  have F := headerTypeByte_bits ⟨be, ver, mc, len, ecu, ses, ts, ext⟩ hv
  dsimp only at F
  obtain ⟨f1, f2, f3, f4, f5, f6, f7⟩ := F
  simp only [headerSizeOf, f1, f3, f4, f5]
  rcases ecu with _ | v1 <;> rcases ses with _ | v2 <;> rcases ts with _ | v3 <;>
    rcases ext with _ | v4 <;> simp [DltHeader.header_len]

set_option maxHeartbeats 4000000 in
theorem header_decode (h : DltHeader) (p : List Nat) (hs : Nat)
    (hwf : h.wfb = true) (hv : h.version ≤ 7) :
    DltPacketSlice.header ⟨h.encode ++ p, hs⟩ = h := by
  obtain ⟨be, ver, mc, len, ecu, ses, ts, ext⟩ := h
  dsimp only at hv
  simp only [DltHeader.wfb, Bool.and_eq_true, decide_eq_true_eq] at hwf
  obtain ⟨⟨⟨⟨⟨⟨hver, hmc⟩, hlen⟩, hecu⟩, hses⟩, hts⟩, hext⟩ := hwf
  have F := headerTypeByte_bits ⟨be, ver, mc, len, ecu, ses, ts, ext⟩ hv
  dsimp only at F
  obtain ⟨f1, f2, f3, f4, f5, f6, f7⟩ := F
  rcases ecu with _ | ecuV <;> rcases ses with _ | sesV <;>
    rcases ts with _ | tsV <;> rcases ext with _ | ⟨mi, na, ai, ci⟩ <;>
    simp only [optU32ok, optExtOk, ExtendedDltHeader.wfb, Bool.and_eq_true,
      decide_eq_true_eq] at hecu hses hts hext <;>
    simp [DltPacketSlice.header, DltHeader.encode, u16be, u32be, optU32be,
      extBytes, be4, f1, f2, f3, f4, f5, f6, List.append_assoc] <;>
    omega

/-- C3 counterexample: the claim as stated fails for an empty payload. The
default header with `length` set to `header_len() + 0 = 4` satisfies the
claim's premise, yet `from_slice` on the encoded bytes fails with
`LengthSmallerThenMinimum` (the code requires a minimum 4-byte payload)
instead of succeeding. -/
theorem C3_counterexample :
    (⟨false, 0, 0, 4, none, none, none, none⟩ : DltHeader).length =
      (⟨false, 0, 0, 4, none, none, none, none⟩ : DltHeader).header_len +
        ([] : List Nat).length ∧
    DltPacketSlice.from_slice
      ((⟨false, 0, 0, 4, none, none, none, none⟩ : DltHeader).encode ++ []) =
      .error (.LengthSmallerThenMinimum 8 4) := by
  constructor <;> rfl

/-- C3 (amended with the minimum payload size the code enforces): for
every Rust-typed (header, payload) pair with version at most 7, at least 4
payload bytes, and `header.length` set to `header_len() + payload.len()`,
`DltPacketSlice::from_slice` applied to the concatenation of the encoded
header and the payload succeeds with the whole buffer as slice, the
resulting slice's `header()` equals the original header, its `payload()`
equals the payload, and `from_slice` on the buffer truncated by one byte
fails with `UnexpectedEndOfSlice`. -/
theorem C3_slice_extraction (h : DltHeader) (p : List Nat)
    (hwf : h.wfb = true) (hv : h.version ≤ 7)
    (hlen : h.length = h.header_len + p.length) (hp4 : 4 ≤ p.length) :
    DltPacketSlice.from_slice (h.encode ++ p) =
      .ok ⟨h.encode ++ p, h.header_len⟩ ∧
    DltPacketSlice.header ⟨h.encode ++ p, h.header_len⟩ = h ∧
    DltPacketSlice.payload ⟨h.encode ++ p, h.header_len⟩ = p ∧
    DltPacketSlice.from_slice
      ((h.encode ++ p).take ((h.encode ++ p).length - 1)) =
      .error (.UnexpectedEndOfSlice h.length (h.length - 1)) := by
  have hwf' := hwf
  simp only [DltHeader.wfb, Bool.and_eq_true, decide_eq_true_eq] at hwf'
  obtain ⟨⟨⟨⟨⟨⟨hver, hmc⟩, hlen16⟩, hecu⟩, hses⟩, hts⟩, hext⟩ := hwf'
  have hl4 : 4 ≤ h.header_len := header_len_ge_four h
  have hEnc : h.encode.length = h.header_len := encode_length h
  have hBufLen : (h.encode ++ p).length = h.length := by
    rw [List.length_append, hEnc]
    omega
  have hG0 : (h.encode ++ p).getD 0 0 = headerTypeByte h := by
    simp [DltHeader.encode]
  have hG2 : (h.encode ++ p).getD 2 0 = h.length / 256 % 256 := by
    simp [DltHeader.encode, u16be, List.append_assoc]
  have hG3 : (h.encode ++ p).getD 3 0 = h.length % 256 := by
    simp [DltHeader.encode, u16be, List.append_assoc]
  have hField : (h.encode ++ p).getD 2 0 * 256 + (h.encode ++ p).getD 3 0 =
      h.length := by
    rw [hG2, hG3]
    omega
  have hHS : headerSizeOf ((h.encode ++ p).getD 0 0) = h.header_len := by
    rw [hG0, headerSizeOf_headerTypeByte h hv]
  refine ⟨?_, header_decode h p h.header_len hwf hv, ?_, ?_⟩
  · simp only [DltPacketSlice.from_slice, hField, hHS, hBufLen]
    rw [if_neg (by omega), if_neg (by omega), if_neg (by omega),
      ← hBufLen, List.take_length]
  · dsimp only [DltPacketSlice.payload]
    rw [← hEnc, List.drop_left]
  · have hT2 : ((h.encode ++ p).take ((h.encode ++ p).length - 1)).getD 2 0 =
        (h.encode ++ p).getD 2 0 := by
      rw [List.getD_eq_getElem?_getD, List.getD_eq_getElem?_getD,
        List.getElem?_take, if_pos (by omega)]
    have hT3 : ((h.encode ++ p).take ((h.encode ++ p).length - 1)).getD 3 0 =
        (h.encode ++ p).getD 3 0 := by
      rw [List.getD_eq_getElem?_getD, List.getD_eq_getElem?_getD,
        List.getElem?_take, if_pos (by omega)]
    have hTLen : ((h.encode ++ p).take ((h.encode ++ p).length - 1)).length =
        h.length - 1 := by
      rw [List.length_take, hBufLen]
      omega
    simp only [DltPacketSlice.from_slice, hT2, hT3, hField, hTLen]
    rw [if_neg (by omega), if_pos (by omega)]

theorem C3_slice_extraction_witness :
    DltPacketSlice.from_slice
      ((⟨false, 0, 0, 8, none, none, none, none⟩ : DltHeader).encode ++
        [1, 2, 3, 4]) =
      .ok ⟨(⟨false, 0, 0, 8, none, none, none, none⟩ : DltHeader).encode ++
        [1, 2, 3, 4], 4⟩ ∧
    DltPacketSlice.header ⟨(⟨false, 0, 0, 8, none, none, none, none⟩ :
      DltHeader).encode ++ [1, 2, 3, 4], 4⟩ =
      ⟨false, 0, 0, 8, none, none, none, none⟩ := by
  have := C3_slice_extraction ⟨false, 0, 0, 8, none, none, none, none⟩
    [1, 2, 3, 4] (by decide) (by decide) (by decide) (by decide)
  exact ⟨this.1, this.2.1⟩

end DltParse
